import Mathlib

/-!
Verification development for the grading core of the `ai-autograder` repository.

Shallow embedding conventions:
* JavaScript strings are Lean `String`s; character-level processing works on
  `String.data` (`List Char`).
* JavaScript numbers are modelled as exact rationals (`ℚ`); `Number.isFinite`
  failure (NaN / Infinity from an unparseable string) is modelled by `Option`.
* `String.prototype.toLowerCase` is modelled on the ASCII fragment (the grading
  code only distinguishes ASCII letters).
* Regex `String.prototype.replace(..., 'g')` calls of
  `normalizeAlgebraExpression` are embedded as recursive scans over `List Char`
  that mirror the JS regex engine's left-to-right, advance-on-failure,
  continue-after-match behaviour.
Sources embedded: `src/lib/grading/types.ts`, `src/lib/grading/deterministicGrader.ts`,
and the answer classifier `getAnswerType` from the assignment page.
-/

/-! ## Character and string utilities (JS semantics) -/

/-- ASCII lowercase letter, the `[a-z]` character class. -/
def isLowerAZ (c : Char) : Bool := 'a' ≤ c && c ≤ 'z'

/-- ASCII letter, the `[a-zA-Z]` character class. -/
def isAsciiLetter (c : Char) : Bool := ('a' ≤ c && c ≤ 'z') || ('A' ≤ c && c ≤ 'Z')

/-- ASCII fragment of `String.prototype.toLowerCase` at a single character. -/
def asciiLowerChar (c : Char) : Char :=
  if 'A' ≤ c && c ≤ 'Z' then Char.ofNat (c.toNat + 32) else c

/-- ASCII fragment of `String.prototype.toLowerCase`. -/
def asciiLower (s : String) : String := ⟨s.data.map asciiLowerChar⟩

/-- The JavaScript WhiteSpace ∪ LineTerminator set used by `trim` and `\s`. -/
def jsWhitespaceChars : List Char :=
  [' ', '\t', '\n', '\r', '\x0b', '\x0c', ' ', ' ',
   ' ', ' ', ' ', ' ', ' ', ' ', ' ',
   ' ', ' ', ' ', ' ', ' ', ' ', ' ',
   ' ', '　', '﻿']

/-- Whether a character is JavaScript whitespace. -/
def isJsWhitespace (c : Char) : Bool := jsWhitespaceChars.contains c

/-- `String.prototype.trim`. -/
def jsTrim (s : String) : String :=
  ⟨((s.data.dropWhile isJsWhitespace).reverse.dropWhile isJsWhitespace).reverse⟩

/-- Value of a list of ASCII decimal digits. -/
def digitsToNat (cs : List Char) : ℕ :=
  cs.foldl (fun a c => a * 10 + (c.toNat - '0'.toNat)) 0

/-- Whether `pat` occurs at the start of `s`. -/
def beginsWith : List Char → List Char → Bool
  | [], _ => true
  | _ :: _, [] => false
  | p :: ps, c :: cs => p = c && beginsWith ps cs

/-- Whether `pat` occurs as a contiguous substring of `s`. -/
def containsSub (pat : List Char) : List Char → Bool
  | [] => beginsWith pat []
  | c :: cs => beginsWith pat (c :: cs) || containsSub pat cs

/-! ## JS `Number(string)` conversion (finite results only)

`ToNumber` applied to a string: whitespace-trimmed; empty → `0`; a decimal
literal with optional sign/fraction/exponent, or an unsigned `0x`/`0o`/`0b`
radix literal; anything else is NaN.  NaN and ±Infinity are rejected by the
grader's `Number.isFinite` check, so both are modelled as `none`. -/

/-- Parse the optional exponent tail `(e|E)[+-]?digits` of a decimal literal,
returning the signed exponent; `none` when the tail is malformed. -/
def parseExpPart : List Char → Option ℤ
  | [] => some 0
  | c :: rest =>
    if c = 'e' || c = 'E' then
      match rest with
      | '+' :: ds => if ds ≠ [] && ds.all Char.isDigit then some (digitsToNat ds) else none
      | '-' :: ds => if ds ≠ [] && ds.all Char.isDigit then some (-(digitsToNat ds : ℤ)) else none
      | ds => if ds ≠ [] && ds.all Char.isDigit then some (digitsToNat ds) else none
    else none

/-- Parse an unsigned JS decimal literal `digits[.digits][exp]` / `.digits[exp]`
(the whole list must be consumed). -/
def parseUnsignedDecimal (cs : List Char) : Option ℚ :=
  let ip := cs.takeWhile Char.isDigit
  let rest1 := cs.dropWhile Char.isDigit
  match rest1 with
  | '.' :: rest2 =>
    let fp := rest2.takeWhile Char.isDigit
    let rest3 := rest2.dropWhile Char.isDigit
    if ip = [] && fp = [] then none
    else
      match parseExpPart rest3 with
      | some e => some (((digitsToNat ip : ℚ) + (digitsToNat fp : ℚ) / 10 ^ fp.length) * 10 ^ e)
      | none => none
  | rest =>
    if ip = [] then none
    else
      match parseExpPart rest with
      | some e => some ((digitsToNat ip : ℚ) * 10 ^ e)
      | none => none

/-- Digit value in a given radix (used for `0x` / `0o` / `0b` literals). -/
def radixDigitVal (radix : ℕ) (c : Char) : Option ℕ :=
  let v : ℕ :=
    if '0' ≤ c && c ≤ '9' then c.toNat - '0'.toNat
    else if 'a' ≤ c && c ≤ 'f' then c.toNat - 'a'.toNat + 10
    else if 'A' ≤ c && c ≤ 'F' then c.toNat - 'A'.toNat + 10
    else radix
  if v < radix then some v else none

/-- Parse a whole list of digits in the given radix. -/
def parseRadixAll (radix : ℕ) : List Char → Option ℕ
  | [] => none
  | cs =>
    cs.foldl (fun acc c =>
      match acc, radixDigitVal radix c with
      | some a, some v => some (a * radix + v)
      | _, _ => none) (some 0)

/-- Unsigned decimal part of `Number(...)`; `"Infinity"` is not finite so it
lands in `none` together with the NaN cases. -/
def unsignedJsDecimal (cs : List Char) : Option ℚ := parseUnsignedDecimal cs

/-- JS `Number(s)` restricted to finite results (`Number.isFinite` gate):
`none` means NaN or ±Infinity. -/
def jsNumberFinite (s : String) : Option ℚ :=
  let cs := (jsTrim s).data
  match cs with
  | [] => some 0
  | '0' :: x :: ds =>
    if x = 'x' || x = 'X' then (parseRadixAll 16 ds).map (fun n => (n : ℚ))
    else if x = 'o' || x = 'O' then (parseRadixAll 8 ds).map (fun n => (n : ℚ))
    else if x = 'b' || x = 'B' then (parseRadixAll 2 ds).map (fun n => (n : ℚ))
    else
      match cs with
      | '+' :: rest => unsignedJsDecimal rest
      | '-' :: rest => (unsignedJsDecimal rest).map Neg.neg
      | rest => unsignedJsDecimal rest
  | '+' :: rest => unsignedJsDecimal rest
  | '-' :: rest => (unsignedJsDecimal rest).map Neg.neg
  | rest => unsignedJsDecimal rest

/-! ## `parseNumber` (deterministicGrader.ts lines 4–15) -/

/-- The anchored fraction regex `^[-+]?\d+\/\d+$`. -/
def isFractionLit (cs : List Char) : Bool :=
  let cs1 := match cs with
    | '+' :: r => r
    | '-' :: r => r
    | r => r
  let a := cs1.takeWhile Char.isDigit
  match cs1.dropWhile Char.isDigit with
  | '/' :: r2 => a ≠ [] && r2 ≠ [] && r2.all Char.isDigit
  | _ => false

/-- `parseNumber` from `deterministicGrader.ts`: trim; fractions `n/d` (null on
zero denominator); otherwise generic `Number` conversion gated by
`Number.isFinite`. -/
def parseNumber (input : String) : Option ℚ :=
  let trimmed := jsTrim input
  if isFractionLit trimmed.data then
    match trimmed.splitOn "/" with
    | [a, b] =>
      match jsNumberFinite a, jsNumberFinite b with
      | some n, some d => if d = 0 then none else some (n / d)
      | _, _ => none
    | _ => none
  else jsNumberFinite trimmed

/-! ## `normalizeAlgebraExpression` (deterministicGrader.ts lines 17–65)

Each global regex replace is embedded as a left-to-right scan: on a failed
match the scan advances one character, on a successful match it emits the
replacement and continues after the matched text. -/

/-- Whether the first character of a list is an ASCII letter (regex
lookahead/next-char test). -/
def headIsAsciiLetter : List Char → Bool
  | d :: _ => isAsciiLetter d
  | [] => false

/-- Whether the first character of a list is a lowercase ASCII letter. -/
def headIsLowerAZ : List Char → Bool
  | d :: _ => isLowerAZ d
  | [] => false

/-- Fuel-indexed scan for `replace(/√(\d+)/g, 'sqrt($1)')`.  The wrapper below
passes the list length as fuel; since every step consumes at least one
character this never runs out before the list is exhausted, and the fuel-zero
fallback (the list itself, necessarily `[]`) is never semantically relevant. -/
def sqrtNumFuel : ℕ → List Char → List Char
  | 0, l => l
  | _ + 1, [] => []
  | n + 1, c :: rest =>
    if c = '√' && rest.takeWhile Char.isDigit ≠ [] then
      "sqrt(".data ++ rest.takeWhile Char.isDigit ++ [')'] ++
        sqrtNumFuel n (rest.dropWhile Char.isDigit)
    else c :: sqrtNumFuel n rest

/-- `replace(/√(\d+)/g, 'sqrt($1)')`. -/
def sqrtNum (l : List Char) : List Char := sqrtNumFuel l.length l

/-- Fuel-indexed scan for `replace(/√([a-zA-Z])/g, 'sqrt($1)')`. -/
def sqrtVarFuel : ℕ → List Char → List Char
  | 0, l => l
  | _ + 1, [] => []
  | n + 1, c :: rest =>
    if c = '√' && headIsAsciiLetter rest then
      "sqrt(".data ++ [rest.headD ' ', ')'] ++ sqrtVarFuel n rest.tail
    else c :: sqrtVarFuel n rest

/-- `replace(/√([a-zA-Z])/g, 'sqrt($1)')`. -/
def sqrtVar (l : List Char) : List Char := sqrtVarFuel l.length l

/-- Fuel-indexed scan for `replace(/√\(([^)]+)\)/g, 'sqrt($1)')`: a `√(`, at
least one non-`)` character, then the closing `)`; the scan resumes after the
`)`. -/
def sqrtParenFuel : ℕ → List Char → List Char
  | 0, l => l
  | _ + 1, [] => []
  | n + 1, c :: rest =>
    if c = '√' && rest.headD ' ' = '(' &&
        rest.tail.takeWhile (fun d => d ≠ ')') ≠ [] &&
        rest.tail.dropWhile (fun d => d ≠ ')') ≠ [] then
      "sqrt(".data ++ rest.tail.takeWhile (fun d => d ≠ ')') ++ [')'] ++
        sqrtParenFuel n (rest.tail.dropWhile (fun d => d ≠ ')')).tail
    else c :: sqrtParenFuel n rest

/-- `replace(/√\(([^)]+)\)/g, 'sqrt($1)')`. -/
def sqrtParen (l : List Char) : List Char := sqrtParenFuel l.length l

/-- A single-character global replace `replace(/c/g, repl)`. -/
def replaceCharStr (target : Char) (repl : List Char) : List Char → List Char
  | [] => []
  | c :: rest => (if c = target then repl else [c]) ++ replaceCharStr target repl rest

/-- Fuel-indexed scan for `replace(/sqrt(\d+)/g, 'sqrt($1)')`. -/
def sqrtNumFixFuel : ℕ → List Char → List Char
  | 0, l => l
  | _ + 1, [] => []
  | n + 1, c :: rest =>
    if c = 's' && beginsWith "qrt".data rest && (rest.drop 3).takeWhile Char.isDigit ≠ [] then
      "sqrt(".data ++ (rest.drop 3).takeWhile Char.isDigit ++ [')'] ++
        sqrtNumFixFuel n ((rest.drop 3).dropWhile Char.isDigit)
    else c :: sqrtNumFixFuel n rest

/-- `replace(/sqrt(\d+)/g, 'sqrt($1)')`. -/
def sqrtNumFix (l : List Char) : List Char := sqrtNumFixFuel l.length l

/-- Fuel-indexed scan for `replace(/sqrt([a-zA-Z])/g, 'sqrt($1)')`. -/
def sqrtVarFixFuel : ℕ → List Char → List Char
  | 0, l => l
  | _ + 1, [] => []
  | n + 1, c :: rest =>
    if c = 's' && beginsWith "qrt".data rest && headIsAsciiLetter (rest.drop 3) then
      "sqrt(".data ++ [(rest.drop 3).headD ' ', ')'] ++ sqrtVarFixFuel n (rest.drop 4)
    else c :: sqrtVarFixFuel n rest

/-- `replace(/sqrt([a-zA-Z])/g, 'sqrt($1)')`. -/
def sqrtVarFix (l : List Char) : List Char := sqrtVarFixFuel l.length l

/-- `replace(/(\d+)([a-z])/g, '$1*$2')`: a `*` is inserted at every boundary
between a digit and an immediately following lowercase letter. -/
def digitLetterStar : List Char → List Char
  | a :: b :: rest =>
    if a.isDigit && isLowerAZ b then a :: '*' :: digitLetterStar (b :: rest)
    else a :: digitLetterStar (b :: rest)
  | l => l

/-- `replace(/([a-z])(\d+)/g, '$1*$2')`: a `*` is inserted at every boundary
between a lowercase letter and an immediately following digit. -/
def letterDigitStar : List Char → List Char
  | a :: b :: rest =>
    if isLowerAZ a && b.isDigit then a :: '*' :: letterDigitStar (b :: rest)
    else a :: letterDigitStar (b :: rest)
  | l => l

/-- `replace(/([a-z])([a-z])(?![a-z])/g, '$1*$2')`: two lowercase letters not
followed by a third; on a match the scan continues after the second letter. -/
def pairStar : List Char → List Char
  | a :: b :: rest =>
    if isLowerAZ a && isLowerAZ b && !(headIsLowerAZ rest) then
      a :: '*' :: b :: pairStar rest
    else a :: pairStar (b :: rest)
  | l => l

/-- `normalizeAlgebraExpression` from `deterministicGrader.ts`, stage by stage
in source order. -/
def normalizeAlgebraExpression (expr : String) : String :=
  let r := (asciiLower (jsTrim expr)).data
  let r := sqrtNum r
  let r := sqrtVar r
  let r := sqrtParen r
  let r := replaceCharStr '√' "sqrt".data r
  let r := replaceCharStr '∛' "cbrt".data r
  let r := replaceCharStr 'π' "pi".data r
  let r := replaceCharStr '∞' "infinity".data r
  let r := replaceCharStr '²' "^2".data r
  let r := replaceCharStr '³' "^3".data r
  let r := replaceCharStr '⁴' "^4".data r
  let r := replaceCharStr '⁵' "^5".data r
  let r := replaceCharStr '⁶' "^6".data r
  let r := replaceCharStr '⁷' "^7".data r
  let r := replaceCharStr '⁸' "^8".data r
  let r := replaceCharStr '⁹' "^9".data r
  let r := replaceCharStr '⁰' "^0".data r
  let r := replaceCharStr '¹' "^1".data r
  let r := replaceCharStr '×' "*".data r
  let r := replaceCharStr '·' "*".data r
  let r := replaceCharStr '•' "*".data r
  let r := replaceCharStr '÷' "/".data r
  let r := sqrtNumFix r
  let r := sqrtVarFix r
  let r := r.filter (fun c => !(isJsWhitespace c))
  let r := digitLetterStar r
  let r := letterDigitStar r
  let r := pairStar r
  ⟨r⟩

/-! ## Grading data model (`src/lib/grading/types.ts`)

`units?: string | null` collapses to `Option String` (the grader immediately
maps `null` to `undefined` with `?? undefined`).  The `Canonical` union's
`value: Shape | string` fields become `String ⊕ Shape`. -/

/-- `GradeResult`. -/
inductive GradeResult
  | PASS
  | FAIL
  | REVIEW
deriving DecidableEq, Repr

/-- The four answer type tags of `SubmissionPayload.type` / `Canonical.type`. -/
inductive AnswerType
  | numeric
  | mc
  | short
  | algebra
deriving DecidableEq, Repr

/-- `NumericPayload`. -/
structure NumericPayload where
  num : String
  units : Option String := none
deriving DecidableEq, Repr

/-- `MCPayload`. -/
structure MCPayload where
  choice : String
deriving DecidableEq, Repr

/-- `ShortPayload`. -/
structure ShortPayload where
  text : String
deriving DecidableEq, Repr

/-- `AlgebraPayload`. -/
structure AlgebraPayload where
  expression : String
deriving DecidableEq, Repr

/-- `SubmissionPayload.source`. -/
inductive SubmissionSource
  | vision
  | typed
  | typed_fallback
deriving DecidableEq, Repr

/-- `SubmissionPayload`. -/
structure SubmissionPayload where
  source : SubmissionSource
  type : AnswerType
  numeric : Option NumericPayload := none
  mc : Option MCPayload := none
  short : Option ShortPayload := none
  algebra : Option AlgebraPayload := none
  ocrConf : Option ℚ := none
deriving DecidableEq, Repr

/-- `CanonicalNumeric`. -/
structure CanonicalNumeric where
  num : String
  units : Option String := none
  tolerance : Option ℚ := none
deriving DecidableEq, Repr

/-- `CanonicalShort`. -/
structure CanonicalShort where
  text : String
  synonyms : Option (List String) := none
deriving DecidableEq, Repr

/-- `CanonicalAlgebra`. -/
structure CanonicalAlgebra where
  expression : String
  synonyms : Option (List String) := none
deriving DecidableEq, Repr

/-- The `Canonical` tagged union; `.inl` is the plain-string variant. -/
inductive Canonical
  | numeric (value : String ⊕ CanonicalNumeric)
  | mc (value : String)
  | short (value : String ⊕ CanonicalShort)
  | algebra (value : String ⊕ CanonicalAlgebra)
deriving DecidableEq, Repr

/-- The `type` discriminant of a `Canonical`. -/
def Canonical.ctype : Canonical → AnswerType
  | .numeric _ => .numeric
  | .mc _ => .mc
  | .short _ => .short
  | .algebra _ => .algebra

/-- `GradeResponse`. -/
structure GradeResponse where
  result : GradeResult
  score : ℚ
  reasons : List String
deriving DecidableEq, Repr

/-! ## `gradeDeterministic` (deterministicGrader.ts lines 67–146) -/

/-- `(typeof canonical.value === 'string' ? canonical.value : canonical.value?.num) ?? ''`. -/
def canonicalNumericVal : String ⊕ CanonicalNumeric → String
  | .inl s => s
  | .inr cn => cn.num

/-- `typeof canonical.value === 'string' ? undefined : canonical.value?.units ?? undefined`. -/
def canonicalNumericUnits : String ⊕ CanonicalNumeric → Option String
  | .inl _ => none
  | .inr cn => cn.units

/-- `typeof canonical.value === 'string' ? undefined : canonical.value?.tolerance ?? undefined`. -/
def canonicalNumericTol : String ⊕ CanonicalNumeric → Option ℚ
  | .inl _ => none
  | .inr cn => cn.tolerance

/-- Result of `sUnits && sUnits === cUnits` branching inside `if (cUnits)`
(`sUnits` must be truthy, i.e. a non-empty string, and string-equal). -/
def unitsReason (sUnits : Option String) (cUnits : String) : String :=
  match sUnits with
  | some su => if su ≠ "" && su = cUnits then "UNITS_OK" else "UNITS_MISSING_OR_MISMATCH"
  | none => "UNITS_MISSING_OR_MISMATCH"

/-- The trimmed canonical algebra expression
(`String((typeof base === 'string' ? base : base?.expression) ?? '').trim()`). -/
def canonicalAlgebraExpr : String ⊕ CanonicalAlgebra → String
  | .inl s => jsTrim s
  | .inr ca => jsTrim ca.expression

/-- The trimmed canonical algebra synonyms (`[]` unless `base.synonyms` is an
array; each `.trim()`ed as in the source's `.map(s => s.trim())`). -/
def canonicalAlgebraSyns : String ⊕ CanonicalAlgebra → List String
  | .inl _ => []
  | .inr ca => (ca.synonyms.getD []).map jsTrim

/-- `String(payload.algebra?.expression ?? '').trim()`. -/
def submittedAlgebraExpr (payload : SubmissionPayload) : String :=
  jsTrim ((payload.algebra.map AlgebraPayload.expression).getD "")

/-- `gradeDeterministic` from `deterministicGrader.ts`. -/
def gradeDeterministic (payload : SubmissionPayload) (canonical : Canonical) : GradeResponse :=
  if payload.type ≠ canonical.ctype then
    ⟨.REVIEW, 0, ["TYPE_MISMATCH"]⟩
  else
    match payload.type, canonical with
    | .numeric, .numeric v =>
      let cVal := canonicalNumericVal v
      let cUnits := canonicalNumericUnits v
      let customTolerance := canonicalNumericTol v
      let sText := (payload.numeric.map NumericPayload.num).getD ""
      let sUnits := payload.numeric.bind NumericPayload.units
      match parseNumber sText, parseNumber cVal with
      | some sNum, some cNum =>
        let tol := match customTolerance with
          | some t => t
          | none => max (|cNum| * (5 / 1000)) (if |cNum| < 1 then 1 / 100 else 0)
        let within : Bool := |sNum - cNum| ≤ tol
        let reasons :=
          (if within then
            [if customTolerance.isSome then "NUM_WITHIN_CUSTOM_TOL" else "NUM_WITHIN_AUTO_TOL"]
           else []) ++
          (match cUnits with
           | some cu => if cu ≠ "" then [unitsReason sUnits cu] else []
           | none => [])
        ⟨if within then .PASS else .FAIL, if within then 1 else 0, reasons⟩
      | _, _ => ⟨.REVIEW, 0, ["NUM_PARSE_FAIL"]⟩
    | .mc, .mc v =>
      let correct := jsTrim v
      let choice := jsTrim ((payload.mc.map MCPayload.choice).getD "")
      let pass : Bool := choice ≠ "" && choice = correct
      ⟨if pass then .PASS else .FAIL, if pass then 1 else 0,
       [if pass then "MC_MATCH" else "MC_MISMATCH"]⟩
    | .short, .short v =>
      let correct := asciiLower (jsTrim (match v with | .inl s => s | .inr cs => cs.text))
      let synonyms := match v with | .inl _ => [] | .inr cs => cs.synonyms.getD []
      let submitted := asciiLower (jsTrim ((payload.short.map ShortPayload.text).getD ""))
      let pass : Bool := submitted ≠ "" && (submitted = correct || synonyms.contains submitted)
      ⟨if pass then .PASS else .FAIL, if pass then 1 else 0,
       [if pass then "SHORT_MATCH" else "SHORT_MISMATCH"]⟩
    | .algebra, .algebra v =>
      let correct := canonicalAlgebraExpr v
      let synonyms := canonicalAlgebraSyns v
      let submitted := submittedAlgebraExpr payload
      let normalizedSubmitted := normalizeAlgebraExpression submitted
      let normalizedCorrect := normalizeAlgebraExpression correct
      let normalizedSynonyms := synonyms.map normalizeAlgebraExpression
      let pass : Bool := normalizedSubmitted ≠ "" &&
        (normalizedSubmitted = normalizedCorrect || normalizedSynonyms.contains normalizedSubmitted)
      ⟨if pass then .PASS else .FAIL, if pass then 1 else 0,
       [if pass then "ALGEBRA_MATCH" else "ALGEBRA_MISMATCH"]⟩
    | _, _ => ⟨.REVIEW, 0, ["UNHANDLED_TYPE"]⟩

/-! ## `gradeWithLLM` (deterministicGrader.ts lines 148–186)

The async call `matchAlgebraExpressions(submitted, correct, synonyms)` is an
external LLM service; it is injected as a function argument.  A rejected
promise (the `catch` branch) is an `Except.error`. -/

/-- The `{ match, confidence, reason }` record returned by
`matchAlgebraExpressions` (`match` is a Lean keyword, renamed `isMatch`). -/
structure OracleResult where
  isMatch : Bool
  confidence : ℚ
  reason : String
deriving DecidableEq, Repr

/-- `gradeWithLLM` from `deterministicGrader.ts`, parameterized by the
semantic-equivalence oracle. -/
def gradeWithLLM
    (oracle : String → String → List String → Except String OracleResult)
    (payload : SubmissionPayload) (canonical : Canonical) : GradeResponse :=
  if payload.type ≠ .algebra || canonical.ctype ≠ .algebra then
    gradeDeterministic payload canonical
  else
    match canonical with
    | .algebra v =>
      let correct := canonicalAlgebraExpr v
      let synonyms := canonicalAlgebraSyns v
      let submitted := submittedAlgebraExpr payload
      if submitted = "" then
        ⟨.FAIL, 0, ["EMPTY_SUBMISSION"]⟩
      else
        match oracle submitted correct synonyms with
        | .ok r =>
          if r.isMatch && r.confidence ≥ 9 / 10 then
            ⟨.PASS, 1, ["ALGEBRA_LLM_MATCH: " ++ r.reason]⟩
          else if r.isMatch && r.confidence ≥ 7 / 10 then
            ⟨.REVIEW, 1 / 2, ["ALGEBRA_LLM_UNCERTAIN: " ++ r.reason]⟩
          else
            ⟨.FAIL, 0, ["ALGEBRA_LLM_MISMATCH: " ++ r.reason]⟩
        | .error _ => gradeDeterministic payload canonical
    | _ => gradeDeterministic payload canonical

/-! ## Answer classifier `getAnswerType` (assignment page) -/

/-- Result type of `getAnswerType` (the four kinds plus `'unknown'`). -/
inductive InferredType
  | numeric
  | mc
  | short
  | algebra
  | unknown
deriving DecidableEq, Repr

/-- The anchored regex `^[A-D]$/i`: one letter A–D, case-insensitive. -/
def mcLetterTest (cs : List Char) : Bool :=
  match cs with
  | [c] => ('A' ≤ c && c ≤ 'D') || ('a' ≤ c && c ≤ 'd')
  | _ => false

/-- The exponent tail `(e[-+]?\d+)?$` of the classifier's number regex
(lowercase `e` only; the regex has no `i` flag). -/
def classifierExpTail : List Char → Bool
  | [] => true
  | 'e' :: rest =>
    match rest with
    | '+' :: ds => ds ≠ [] && ds.all Char.isDigit
    | '-' :: ds => ds ≠ [] && ds.all Char.isDigit
    | ds => ds ≠ [] && ds.all Char.isDigit
  | _ => false

/-- The anchored regex `^[-+]?((\d+\.?\d*)|(\d*\.?\d+))(e[-+]?\d+)?$`. -/
def numberLitTest (cs : List Char) : Bool :=
  let cs1 := match cs with
    | '+' :: r => r
    | '-' :: r => r
    | r => r
  let ip := cs1.takeWhile Char.isDigit
  match cs1.dropWhile Char.isDigit with
  | '.' :: rest2 =>
    let fp := rest2.takeWhile Char.isDigit
    (ip ≠ [] || fp ≠ []) && classifierExpTail (rest2.dropWhile Char.isDigit)
  | rest => ip ≠ [] && classifierExpTail rest

/-- Characters whose presence alone triggers the algebra rule
(`√ ∛ π ∞ ^ + - * / ( ) =`). -/
def algebraGlyphs : List Char :=
  ['√', '∛', 'π', '∞', '^', '+', '-', '*', '/', '(', ')', '=']

/-- The unanchored regex
`/[a-z]|√|∛|π|∞|\^|\*\*|sin|cos|tan|log|ln|\+|\-|\*|\/|\(|\)|=/` applied to a
(lowercased) string: some alternative matches somewhere. -/
def algebraTest (s : String) : Bool :=
  s.data.any (fun c => isLowerAZ c || algebraGlyphs.contains c) ||
  containsSub "**".data s.data ||
  containsSub "sin".data s.data ||
  containsSub "cos".data s.data ||
  containsSub "tan".data s.data ||
  containsSub "log".data s.data ||
  containsSub "ln".data s.data

/-- `getAnswerType` from the assignment page: mc, then numeric, then algebra
(tested on the lowercased trimmed text), then non-empty short, else unknown. -/
def getAnswerType (input : String) : InferredType :=
  let t := jsTrim input
  if mcLetterTest t.data then .mc
  else if isFractionLit t.data || numberLitTest t.data then .numeric
  else if algebraTest (asciiLower t) then .algebra
  else if t.length > 0 then .short
  else .unknown

/-! ## Spec-side definitions (for refinement-style claims)

These follow the words of the specification / claims, not the source, and are
compared against the source-derived definitions above. -/

/-- The fraction rule exactly as the claim words it: `integer/integer` with
denominator ≠ 0 (the digits of the denominator must not all be zero). -/
def fractionNonzeroDenTest (cs : List Char) : Bool :=
  let cs1 := match cs with
    | '+' :: r => r
    | '-' :: r => r
    | r => r
  let a := cs1.takeWhile Char.isDigit
  match cs1.dropWhile Char.isDigit with
  | '/' :: r2 => a ≠ [] && r2 ≠ [] && r2.all Char.isDigit && digitsToNat r2 ≠ 0
  | _ => false

/-- The claim's rule 3 char scan, read literally: the raw (trimmed, not
lowercased) text must contain a lowercase Latin letter or one of the listed
operators/function names. -/
def claimAlgebraTestLiteral (t : String) : Bool := algebraTest t

/-- The C4 claim exactly as stated: priority mc → numeric (fraction requires
nonzero denominator) → algebra (lowercase letters in the raw text) → short →
unknown. -/
def classifyClaimC4 (input : String) : InferredType :=
  let t := jsTrim input
  if mcLetterTest t.data then .mc
  else if fractionNonzeroDenTest t.data || numberLitTest t.data then .numeric
  else if claimAlgebraTestLiteral t then .algebra
  else if t.length > 0 then .short
  else .unknown

/-- The C4 claim amended to the code's behavior: the fraction rule has no
denominator restriction, and rule 3 scans the lowercased text. -/
def classifyClaimC4Amended (input : String) : InferredType :=
  let t := jsTrim input
  if mcLetterTest t.data then .mc
  else if isFractionLit t.data || numberLitTest t.data then .numeric
  else if algebraTest (asciiLower t) then .algebra
  else if t.length > 0 then .short
  else .unknown

/-- The oracle-result thresholding exactly as the C1 claim words it:
match with confidence ≥ 0.9 → PASS score 1; match with 0.7 ≤ confidence < 0.9 →
REVIEW score 0.5; otherwise FAIL score 0. -/
def oracleThresholdClaim (isMatch : Bool) (confidence : ℚ) : GradeResult × ℚ :=
  if isMatch ∧ 9 / 10 ≤ confidence then (.PASS, 1)
  else if isMatch ∧ 7 / 10 ≤ confidence ∧ confidence < 9 / 10 then (.REVIEW, 1 / 2)
  else (.FAIL, 0)

/-- Effective numeric tolerance exactly as the C3 claim words it: the explicit
canonical tolerance when set, else `max(0.005 * |c|, 0.01 if |c| < 1 else 0)`. -/
def effectiveToleranceClaim (explicitTol : Option ℚ) (cNum : ℚ) : ℚ :=
  match explicitTol with
  | some t => t
  | none => max ((5 / 1000) * |cNum|) (if |cNum| < 1 then 1 / 100 else 0)

/-- Characters that are inert for every stage of the normalizer: not an ASCII
letter, not JS whitespace, and not one of the special glyphs the normalizer
rewrites.  On strings of such characters `normalizeAlgebraExpression` is the
identity. -/
def normalizerInertChar (c : Char) : Bool :=
  !(isAsciiLetter c) && !(isJsWhitespace c) &&
  !(['√', '∛', 'π', '∞', '²', '³', '⁴', '⁵', '⁶', '⁷', '⁸', '⁹', '⁰', '¹',
     '×', '·', '•', '÷'].contains c)

/-! ## Claim theorems -/

/-- C1: for algebra-kind grading with a non-empty trimmed submission and a
successful oracle call returning `(match, confidence)`, `gradeWithLLM`
thresholds exactly as claimed: match ∧ confidence ≥ 0.9 → PASS score 1;
match ∧ 0.7 ≤ confidence < 0.9 → REVIEW score 0.5; otherwise FAIL score 0. -/
theorem gradeWithLLM_thresholds_oracle
    (oracle : String → String → List String → Except String OracleResult)
    (payload : SubmissionPayload) (v : String ⊕ CanonicalAlgebra)
    (m : Bool) (conf : ℚ) (why : String)
    (htype : payload.type = .algebra)
    (hsub : submittedAlgebraExpr payload ≠ "")
    (horacle : oracle (submittedAlgebraExpr payload) (canonicalAlgebraExpr v)
        (canonicalAlgebraSyns v) = .ok ⟨m, conf, why⟩) :
    ((gradeWithLLM oracle payload (Canonical.algebra v)).result,
      (gradeWithLLM oracle payload (Canonical.algebra v)).score) =
      oracleThresholdClaim m conf := by
  unfold gradeWithLLM
  simp only [htype, Canonical.ctype, ne_eq, horacle]
  rcases m with _ | _
  · simp [oracleThresholdClaim, hsub]
  · by_cases h9 : (9 : ℚ) / 10 ≤ conf
    · simp [oracleThresholdClaim, hsub, h9, ge_iff_le]
    · by_cases h7 : (7 : ℚ) / 10 ≤ conf
      · simp [oracleThresholdClaim, hsub, h9, h7, ge_iff_le, not_le.mp h9]
      · simp [oracleThresholdClaim, hsub, h9, h7, ge_iff_le]

/-- C1 witness: a concrete oracle returning match with confidence 0.89 yields
REVIEW with score 0.5. -/
theorem gradeWithLLM_thresholds_oracle_witness :
    ((gradeWithLLM (fun _ _ _ => .ok ⟨true, 89 / 100, "r"⟩)
        ⟨.typed, .algebra, none, none, none, some ⟨"x"⟩, none⟩
        (Canonical.algebra (.inl "y"))).result,
      (gradeWithLLM (fun _ _ _ => .ok ⟨true, 89 / 100, "r"⟩)
        ⟨.typed, .algebra, none, none, none, some ⟨"x"⟩, none⟩
        (Canonical.algebra (.inl "y"))).score) = (GradeResult.REVIEW, 1 / 2) :=
  (gradeWithLLM_thresholds_oracle (fun _ _ _ => .ok ⟨true, 89 / 100, "r"⟩)
    ⟨.typed, .algebra, none, none, none, some ⟨"x"⟩, none⟩ (.inl "y")
    true (89 / 100) "r" rfl (by decide) rfl).trans (by norm_num [oracleThresholdClaim])

/-- C2: whenever the submission and canonical kind tags differ, both
`gradeDeterministic` and `gradeWithLLM` (with any oracle) return exactly
`{REVIEW, 0, [TYPE_MISMATCH]}`, independent of payload contents. -/
theorem typeMismatch_always_review
    (oracle : String → String → List String → Except String OracleResult)
    (payload : SubmissionPayload) (canonical : Canonical)
    (h : payload.type ≠ canonical.ctype) :
    gradeDeterministic payload canonical = ⟨.REVIEW, 0, ["TYPE_MISMATCH"]⟩ ∧
    gradeWithLLM oracle payload canonical = ⟨.REVIEW, 0, ["TYPE_MISMATCH"]⟩ := by
  have hdet : gradeDeterministic payload canonical = ⟨.REVIEW, 0, ["TYPE_MISMATCH"]⟩ := by
    unfold gradeDeterministic
    simp [h]
  refine ⟨hdet, ?_⟩
  unfold gradeWithLLM
  by_cases hp : payload.type = .algebra
  · cases canonical with
    | algebra v => exact absurd hp (by simpa [Canonical.ctype] using h)
    | numeric v => simpa [hp, Canonical.ctype] using hdet
    | mc v => simpa [hp, Canonical.ctype] using hdet
    | short v => simpa [hp, Canonical.ctype] using hdet
  · simpa [hp] using hdet

/-- C2 witness: an mc submission against a numeric canonical is REVIEW 0
[TYPE_MISMATCH] under both graders. -/
theorem typeMismatch_always_review_witness :
    gradeDeterministic ⟨.typed, .mc, none, some ⟨"A"⟩, none, none, none⟩
        (Canonical.numeric (.inl "1")) = ⟨.REVIEW, 0, ["TYPE_MISMATCH"]⟩ ∧
    gradeWithLLM (fun _ _ _ => .ok ⟨true, 1, "r"⟩)
        ⟨.typed, .mc, none, some ⟨"A"⟩, none, none, none⟩
        (Canonical.numeric (.inl "1")) = ⟨.REVIEW, 0, ["TYPE_MISMATCH"]⟩ :=
  typeMismatch_always_review (fun _ _ _ => .ok ⟨true, 1, "r"⟩)
    ⟨.typed, .mc, none, some ⟨"A"⟩, none, none, none⟩
    (Canonical.numeric (.inl "1")) (by decide)

/-- C5: for algebra-kind grading with a non-empty trimmed submission, when the
oracle call fails (raises), `gradeWithLLM` returns exactly the result of
`gradeDeterministic` on the same submission and canonical. -/
theorem oracle_failure_falls_back_deterministic
    (oracle : String → String → List String → Except String OracleResult)
    (payload : SubmissionPayload) (v : String ⊕ CanonicalAlgebra) (e : String)
    (htype : payload.type = .algebra)
    (hsub : submittedAlgebraExpr payload ≠ "")
    (herr : oracle (submittedAlgebraExpr payload) (canonicalAlgebraExpr v)
        (canonicalAlgebraSyns v) = .error e) :
    gradeWithLLM oracle payload (Canonical.algebra v) =
      gradeDeterministic payload (Canonical.algebra v) := by
  unfold gradeWithLLM
  simp [htype, Canonical.ctype, hsub, herr]

/-- C5 witness: a throwing oracle on submission "x" vs canonical "x" falls back
to the deterministic grader's answer. -/
theorem oracle_failure_falls_back_deterministic_witness :
    gradeWithLLM (fun _ _ _ => .error "network")
        ⟨.typed, .algebra, none, none, none, some ⟨"x"⟩, none⟩
        (Canonical.algebra (.inl "x")) =
      gradeDeterministic ⟨.typed, .algebra, none, none, none, some ⟨"x"⟩, none⟩
        (Canonical.algebra (.inl "x")) :=
  oracle_failure_falls_back_deterministic (fun _ _ _ => .error "network")
    ⟨.typed, .algebra, none, none, none, some ⟨"x"⟩, none⟩ (.inl "x") "network"
    rfl (by decide) rfl

/-- C8: for algebra-kind grading, an empty-after-trim submitted expression
yields exactly `{FAIL, 0, [EMPTY_SUBMISSION]}`, and the oracle is never
consulted (the result is identical for every pair of oracles). -/
theorem empty_algebra_submission_fails_without_oracle
    (oracle oracle2 : String → String → List String → Except String OracleResult)
    (payload : SubmissionPayload) (v : String ⊕ CanonicalAlgebra)
    (htype : payload.type = .algebra)
    (hsub : submittedAlgebraExpr payload = "") :
    gradeWithLLM oracle payload (Canonical.algebra v) = ⟨.FAIL, 0, ["EMPTY_SUBMISSION"]⟩ ∧
    gradeWithLLM oracle payload (Canonical.algebra v) =
      gradeWithLLM oracle2 payload (Canonical.algebra v) := by
  have h : ∀ o : String → String → List String → Except String OracleResult,
      gradeWithLLM o payload (Canonical.algebra v) = ⟨.FAIL, 0, ["EMPTY_SUBMISSION"]⟩ := by
    intro o
    unfold gradeWithLLM
    simp [htype, Canonical.ctype, hsub]
  exact ⟨h oracle, (h oracle).trans (h oracle2).symm⟩

/-- C8 witness: a whitespace-only algebra submission FAILs with
EMPTY_SUBMISSION under two different concrete oracles. -/
theorem empty_algebra_submission_fails_without_oracle_witness :
    gradeWithLLM (fun _ _ _ => .ok ⟨true, 1, "r"⟩)
        ⟨.typed, .algebra, none, none, none, some ⟨"  "⟩, none⟩
        (Canonical.algebra (.inl "x")) = ⟨.FAIL, 0, ["EMPTY_SUBMISSION"]⟩ ∧
    gradeWithLLM (fun _ _ _ => .ok ⟨true, 1, "r"⟩)
        ⟨.typed, .algebra, none, none, none, some ⟨"  "⟩, none⟩
        (Canonical.algebra (.inl "x")) =
      gradeWithLLM (fun _ _ _ => .error "down")
        ⟨.typed, .algebra, none, none, none, some ⟨"  "⟩, none⟩
        (Canonical.algebra (.inl "x")) :=
  empty_algebra_submission_fails_without_oracle
    (fun _ _ _ => .ok ⟨true, 1, "r"⟩) (fun _ _ _ => .error "down")
    ⟨.typed, .algebra, none, none, none, some ⟨"  "⟩, none⟩ (.inl "x") rfl (by decide)

/-- Helper: reduction of `gradeDeterministic` on the numeric branch when both
sides parse. -/
theorem gradeDeterministic_numeric_reduce
    (src : SubmissionSource) (numStr : String) (u : Option String)
    (mcp : Option MCPayload) (scp : Option ShortPayload) (acp : Option AlgebraPayload)
    (ocr : Option ℚ) (v : String ⊕ CanonicalNumeric) (sNum cNum : ℚ)
    (hs : parseNumber numStr = some sNum)
    (hc : parseNumber (canonicalNumericVal v) = some cNum) :
    gradeDeterministic ⟨src, .numeric, some ⟨numStr, u⟩, mcp, scp, acp, ocr⟩
        (Canonical.numeric v) =
      (let tol := match canonicalNumericTol v with
        | some t => t
        | none => max (|cNum| * (5 / 1000)) (if |cNum| < 1 then 1 / 100 else 0)
       let within : Bool := |sNum - cNum| ≤ tol
       ⟨if within then .PASS else .FAIL, if within then 1 else 0,
        (if within then
          [if (canonicalNumericTol v).isSome then "NUM_WITHIN_CUSTOM_TOL"
           else "NUM_WITHIN_AUTO_TOL"]
         else []) ++
        (match canonicalNumericUnits v with
         | some cu => if cu ≠ "" then [unitsReason u cu] else []
         | none => [])⟩) := by
  unfold gradeDeterministic
  simp [Canonical.ctype, hs, hc]

/-- Concrete parse fact: `parseNumber "9.8" = 49/5` (stated via the raw
parser output, then normalized). -/
theorem parseNumber_9_8 : parseNumber "9.8" = some (49 / 5 : ℚ) := by
  rw [show parseNumber "9.8" = some (((9 : ℚ) + (8 : ℚ) / 10 ^ 1) * 10 ^ (0 : ℤ)) from rfl]
  norm_num

/-- Concrete parse fact: `parseNumber "9.81" = 981/100`. -/
theorem parseNumber_9_81 : parseNumber "9.81" = some (981 / 100 : ℚ) := by
  rw [show parseNumber "9.81" = some (((9 : ℚ) + (81 : ℚ) / 10 ^ 2) * 10 ^ (0 : ℤ)) from rfl]
  norm_num

/-- Concrete parse fact: `parseNumber "10.5" = 21/2`. -/
theorem parseNumber_10_5 : parseNumber "10.5" = some (21 / 2 : ℚ) := by
  rw [show parseNumber "10.5" = some (((10 : ℚ) + (5 : ℚ) / 10 ^ 1) * 10 ^ (0 : ℤ)) from rfl]
  norm_num

/-- Concrete parse fact: `parseNumber "5" = 5`. -/
theorem parseNumber_lit_5 : parseNumber "5" = some (5 : ℚ) := by
  rw [show parseNumber "5" = some ((5 : ℚ) * 10 ^ (0 : ℤ)) from rfl]
  norm_num

/-- Concrete parse fact: `parseNumber "1" = 1`. -/
theorem parseNumber_lit_1 : parseNumber "1" = some (1 : ℚ) := by
  rw [show parseNumber "1" = some ((1 : ℚ) * 10 ^ (0 : ℤ)) from rfl]
  norm_num

/-- Concrete parse fact: `parseNumber "0" = 0`. -/
theorem parseNumber_lit_0 : parseNumber "0" = some (0 : ℚ) := by
  rw [show parseNumber "0" = some ((0 : ℚ) * 10 ^ (0 : ℤ)) from rfl]
  norm_num

/-- C3: for numeric-kind grading where both value strings parse, the grader
uses the claimed effective tolerance (explicit tolerance when set, else
`max(0.005·|c|, 0.01 if |c| < 1 else 0)`) and returns PASS score 1 exactly when
`|s − c| ≤ tolerance`, else FAIL score 0. -/
theorem numeric_tolerance_verdict
    (src : SubmissionSource) (numStr : String) (u : Option String)
    (mcp : Option MCPayload) (scp : Option ShortPayload) (acp : Option AlgebraPayload)
    (ocr : Option ℚ) (v : String ⊕ CanonicalNumeric) (sNum cNum : ℚ)
    (hs : parseNumber numStr = some sNum)
    (hc : parseNumber (canonicalNumericVal v) = some cNum) :
    (|sNum - cNum| ≤ effectiveToleranceClaim (canonicalNumericTol v) cNum →
      (gradeDeterministic ⟨src, .numeric, some ⟨numStr, u⟩, mcp, scp, acp, ocr⟩
          (Canonical.numeric v)).result = .PASS ∧
      (gradeDeterministic ⟨src, .numeric, some ⟨numStr, u⟩, mcp, scp, acp, ocr⟩
          (Canonical.numeric v)).score = 1) ∧
    (¬ |sNum - cNum| ≤ effectiveToleranceClaim (canonicalNumericTol v) cNum →
      (gradeDeterministic ⟨src, .numeric, some ⟨numStr, u⟩, mcp, scp, acp, ocr⟩
          (Canonical.numeric v)).result = .FAIL ∧
      (gradeDeterministic ⟨src, .numeric, some ⟨numStr, u⟩, mcp, scp, acp, ocr⟩
          (Canonical.numeric v)).score = 0) := by
  rw [gradeDeterministic_numeric_reduce src numStr u mcp scp acp ocr v sNum cNum hs hc]
  cases hct : canonicalNumericTol v with
  | some t =>
    simp only [effectiveToleranceClaim, hct]
    constructor <;> intro hw <;> simp [hw]
  | none =>
    simp only [effectiveToleranceClaim, hct]
    constructor <;> intro hw <;>
      rw [mul_comm (5 / 1000 : ℚ)] at hw <;>
      simp only [one_div] at hw <;>
      simp [hw, -le_sup_iff, -sup_lt_iff, -lt_sup_iff, -sup_le_iff]

/-- C3 witness: canonical "9.81" with submission "9.8" PASSes under the
auto-tolerance, and canonical "9.81" with tolerance 0.05 and submission "10.5"
FAILs. -/
theorem numeric_tolerance_verdict_witness :
    ((gradeDeterministic ⟨.typed, .numeric, some ⟨"9.8", none⟩, none, none, none, none⟩
        (Canonical.numeric (.inl "9.81"))).result = .PASS ∧
      (gradeDeterministic ⟨.typed, .numeric, some ⟨"9.8", none⟩, none, none, none, none⟩
        (Canonical.numeric (.inl "9.81"))).score = 1) ∧
    ((gradeDeterministic ⟨.typed, .numeric, some ⟨"10.5", none⟩, none, none, none, none⟩
        (Canonical.numeric (.inr ⟨"9.81", none, some (1 / 20)⟩))).result = .FAIL ∧
      (gradeDeterministic ⟨.typed, .numeric, some ⟨"10.5", none⟩, none, none, none, none⟩
        (Canonical.numeric (.inr ⟨"9.81", none, some (1 / 20)⟩))).score = 0) :=
  ⟨(numeric_tolerance_verdict .typed "9.8" none none none none none (.inl "9.81")
      (49 / 5) (981 / 100) parseNumber_9_8 parseNumber_9_81).1
    (by
      have habs : |(49 : ℚ) / 5 - 981 / 100| = 1 / 100 := by
        rw [abs_of_nonpos (by norm_num)]; norm_num
      have hcabs : |(981 : ℚ) / 100| = 981 / 100 := abs_of_nonneg (by norm_num)
      simp only [effectiveToleranceClaim, canonicalNumericTol, habs, hcabs]
      norm_num),
   (numeric_tolerance_verdict .typed "10.5" none none none none none
      (.inr ⟨"9.81", none, some (1 / 20)⟩) (21 / 2) (981 / 100) parseNumber_10_5
      parseNumber_9_81).2
    (by
      have habs : |(21 : ℚ) / 2 - 981 / 100| = 69 / 100 := by
        rw [abs_of_nonneg (by norm_num)]; norm_num
      simp only [effectiveToleranceClaim, canonicalNumericTol, habs]
      norm_num)⟩

/-- Helper: the grader's tolerance expression equals the claim-side
`effectiveToleranceClaim`. -/
theorem effectiveTolerance_code_eq_claim (o : Option ℚ) (cNum : ℚ) :
    (match o with
      | some t => t
      | none => max (|cNum| * (5 / 1000)) (if |cNum| < 1 then 1 / 100 else 0)) =
    effectiveToleranceClaim o cNum := by
  cases o <;> simp [effectiveToleranceClaim, mul_comm]

/-- C10: an empty-or-whitespace submitted numeric string parses as the finite
number 0 (never the failure sentinel), so the numeric branch never returns
NUM_PARSE_FAIL/REVIEW for it when the canonical parses; it PASSes exactly when
`|0 − c|` is within the effective tolerance. -/
theorem empty_numeric_submission_grades_as_zero
    (s : String) (src : SubmissionSource) (u : Option String)
    (mcp : Option MCPayload) (scp : Option ShortPayload) (acp : Option AlgebraPayload)
    (ocr : Option ℚ) (v : String ⊕ CanonicalNumeric) (cNum : ℚ)
    (hts : jsTrim s = "")
    (hc : parseNumber (canonicalNumericVal v) = some cNum) :
    parseNumber s = some 0 ∧
    (gradeDeterministic ⟨src, .numeric, some ⟨s, u⟩, mcp, scp, acp, ocr⟩
        (Canonical.numeric v)).result ≠ .REVIEW ∧
    ((gradeDeterministic ⟨src, .numeric, some ⟨s, u⟩, mcp, scp, acp, ocr⟩
        (Canonical.numeric v)).result = .PASS ↔
      |0 - cNum| ≤ effectiveToleranceClaim (canonicalNumericTol v) cNum) := by
  have hs : parseNumber s = some 0 := by
    unfold parseNumber
    rw [hts]
    rfl
  refine ⟨hs, ?_, ?_⟩ <;>
    rw [gradeDeterministic_numeric_reduce src s u mcp scp acp ocr v 0 cNum hs hc,
      effectiveTolerance_code_eq_claim (canonicalNumericTol v) cNum] <;>
    by_cases hw : |0 - cNum| ≤ effectiveToleranceClaim (canonicalNumericTol v) cNum <;>
    simp only [zero_sub, abs_neg] at hw <;>
    simp [hw]

/-- C10 witness: an empty numeric submission against canonical "0" PASSes. -/
theorem empty_numeric_submission_grades_as_zero_witness :
    parseNumber "" = some 0 ∧
    (gradeDeterministic ⟨.typed, .numeric, some ⟨"", none⟩, none, none, none, none⟩
        (Canonical.numeric (.inl "0"))).result = .PASS :=
  have h := empty_numeric_submission_grades_as_zero "" .typed none none none none none
    (.inl "0") 0 (by decide) parseNumber_lit_0
  ⟨h.1, h.2.2.mpr (by norm_num [effectiveToleranceClaim, canonicalNumericTol])⟩

/-- C9: the units field of a numeric submission never affects the verdict:
two numeric submissions identical except for units get the same result and
score against any canonical; and when the canonical specifies (truthy) units,
the units comparison only appends `UNITS_OK` (exactly when the submitted units
string-equals the canonical units) or `UNITS_MISSING_OR_MISMATCH` as the last
reason. -/
theorem units_never_gate_numeric_verdict
    (src : SubmissionSource) (numStr : String) (u1 u2 : Option String)
    (mcp : Option MCPayload) (scp : Option ShortPayload) (acp : Option AlgebraPayload)
    (ocr : Option ℚ) (canonical : Canonical)
    (v : String ⊕ CanonicalNumeric) (cu : String) (sNum cNum : ℚ) :
    ((gradeDeterministic ⟨src, .numeric, some ⟨numStr, u1⟩, mcp, scp, acp, ocr⟩
        canonical).result =
      (gradeDeterministic ⟨src, .numeric, some ⟨numStr, u2⟩, mcp, scp, acp, ocr⟩
        canonical).result ∧
     (gradeDeterministic ⟨src, .numeric, some ⟨numStr, u1⟩, mcp, scp, acp, ocr⟩
        canonical).score =
      (gradeDeterministic ⟨src, .numeric, some ⟨numStr, u2⟩, mcp, scp, acp, ocr⟩
        canonical).score) ∧
    (canonicalNumericUnits v = some cu → cu ≠ "" →
      parseNumber numStr = some sNum → parseNumber (canonicalNumericVal v) = some cNum →
      ((gradeDeterministic ⟨src, .numeric, some ⟨numStr, u1⟩, mcp, scp, acp, ocr⟩
          (Canonical.numeric v)).reasons.getLast? = some (unitsReason u1 cu) ∧
       (unitsReason u1 cu = "UNITS_OK" ↔ u1 = some cu ∧ cu ≠ ""))) := by
  constructor
  · cases canonical with
    | numeric v' =>
      unfold gradeDeterministic
      simp only [Canonical.ctype, ne_eq]
      cases hpn : parseNumber numStr <;> cases hpc : parseNumber (canonicalNumericVal v') <;>
        simp [hpn, hpc]
    | mc v' => unfold gradeDeterministic; simp [Canonical.ctype]
    | short v' => unfold gradeDeterministic; simp [Canonical.ctype]
    | algebra v' => unfold gradeDeterministic; simp [Canonical.ctype]
  · intro hcu hne hs hc
    rw [gradeDeterministic_numeric_reduce src numStr u1 mcp scp acp ocr v sNum cNum hs hc]
    constructor
    · simp only [hcu, hne, if_pos, List.getLast?_concat, ite_not]
      split <;> simp [List.getLast?_concat]
    · unfold unitsReason
      cases u1 with
      | none => simp
      | some su =>
        by_cases hsu : su = "" <;> by_cases heq : su = cu <;>
          simp [hsu, heq, hne] <;> simp_all

/-- C9 witness: submissions "5 m" vs "5 (no units)" against canonical 5 m get
the same PASS verdict and score, and the units reason is the last reason. -/
theorem units_never_gate_numeric_verdict_witness :
    ((gradeDeterministic ⟨.typed, .numeric, some ⟨"5", some "m"⟩, none, none, none, none⟩
        (Canonical.numeric (.inr ⟨"5", some "m", none⟩))).result =
      (gradeDeterministic ⟨.typed, .numeric, some ⟨"5", none⟩, none, none, none, none⟩
        (Canonical.numeric (.inr ⟨"5", some "m", none⟩))).result) ∧
    ((gradeDeterministic ⟨.typed, .numeric, some ⟨"5", some "m"⟩, none, none, none, none⟩
        (Canonical.numeric (.inr ⟨"5", some "m", none⟩))).reasons.getLast? =
      some (unitsReason (some "m") "m")) :=
  have h := units_never_gate_numeric_verdict .typed "5" (some "m") none none none none none
    (Canonical.numeric (.inr ⟨"5", some "m", none⟩)) (.inr ⟨"5", some "m", none⟩) "m" 5 5
  ⟨h.1.1, (h.2 (by decide) (by decide) parseNumber_lit_5 parseNumber_lit_5).1⟩

/-- C6 counterexample: the numeric comparison branch can return an **empty**
reasons list — submission "5" against canonical "1" (no units) FAILs with zero
reason codes, refuting "every branch returns exactly one reason code". -/
theorem gradeDeterministic_zero_reasons_counterexample :
    gradeDeterministic ⟨.typed, .numeric, some ⟨"5", none⟩, none, none, none, none⟩
        (Canonical.numeric (.inl "1")) = ⟨.FAIL, 0, []⟩ := by
  rw [gradeDeterministic_numeric_reduce .typed "5" none none none none none (.inl "1") 5 1
    parseNumber_lit_5 parseNumber_lit_1]
  have h4 : |(5 : ℚ) - 1| = 4 := by
    rw [abs_of_nonneg (by norm_num)]; norm_num
  simp [canonicalNumericTol, canonicalNumericUnits, h4, abs_one]
  norm_num

/-- C6 amended: every branch maps PASS to score 1 and FAIL/REVIEW to score 0;
every non-numeric-comparison branch returns exactly one reason code, while the
numeric comparison branch returns between zero and two (so at most two
overall). -/
theorem gradeDeterministic_score_reasons_invariant (p : SubmissionPayload) (c : Canonical) :
    ((gradeDeterministic p c).result = .PASS → (gradeDeterministic p c).score = 1) ∧
    ((gradeDeterministic p c).result = .FAIL → (gradeDeterministic p c).score = 0) ∧
    ((gradeDeterministic p c).result = .REVIEW → (gradeDeterministic p c).score = 0) ∧
    (gradeDeterministic p c).reasons.length ≤ 2 ∧
    (¬(p.type = .numeric ∧ c.ctype = .numeric) → (gradeDeterministic p c).reasons.length = 1) := by
  unfold gradeDeterministic
  by_cases h : p.type = c.ctype
  case neg => simp [h]
  case pos =>
    cases c with
    | numeric v =>
      simp only [Canonical.ctype] at h
      simp only [h, Canonical.ctype, ne_eq, not_true_eq_false, if_false, ite_not]
      cases hpn : parseNumber ((p.numeric.map NumericPayload.num).getD "") <;>
        cases hpc : parseNumber (canonicalNumericVal v) <;>
        simp [hpn, hpc]
      rcases hcu : canonicalNumericUnits v with _ | cu <;>
        simp [hcu] <;> split_ifs <;> simp
    | mc v =>
      simp only [Canonical.ctype] at h
      simp only [h, Canonical.ctype, ne_eq, not_true_eq_false, if_false, ite_not]
      split_ifs <;> simp
    | short v =>
      simp only [Canonical.ctype] at h
      simp only [h, Canonical.ctype, ne_eq, not_true_eq_false, if_false, ite_not]
      split_ifs <;> simp
    | algebra v =>
      simp only [Canonical.ctype] at h
      simp only [h, Canonical.ctype, ne_eq, not_true_eq_false, if_false, ite_not]
      split_ifs <;> simp

/-- C6 amended witness: at a concrete mismatched-type input the invariant gives
a single reason code. -/
theorem gradeDeterministic_score_reasons_invariant_witness :
    (gradeDeterministic ⟨.typed, .mc, none, some ⟨"A"⟩, none, none, none⟩
        (Canonical.numeric (.inl "1"))).reasons.length = 1 :=
  (gradeDeterministic_score_reasons_invariant
      ⟨.typed, .mc, none, some ⟨"A"⟩, none, none, none⟩
      (Canonical.numeric (.inl "1"))).2.2.2.2 (by decide)

/-- C4 counterexample: the claim as stated disagrees with the code. The code's
fraction rule has no denominator≠0 requirement, so "1/0" is classified numeric
where the claim's rules yield algebraic; and rule 3 is applied to the
lowercased text, so "SUMMIT" is classified algebraic where the claim's
"lowercase Latin letter" reading yields short-text. -/
theorem getAnswerType_claim_counterexample :
    (getAnswerType "1/0" = .numeric ∧ classifyClaimC4 "1/0" = .algebra) ∧
    (getAnswerType "SUMMIT" = .algebra ∧ classifyClaimC4 "SUMMIT" = .short) := by
  decide

/-- C4 amended: the classifier applies the priority rules with an unrestricted
`integer/integer` fraction rule and a case-insensitive rule 3 (the scan runs on
the lowercased trimmed text); the claim's concrete examples hold. -/
theorem getAnswerType_follows_amended_rules :
    (∀ s : String, getAnswerType s = classifyClaimC4Amended s) ∧
    getAnswerType "A" = .mc ∧ getAnswerType "42" = .numeric ∧
    getAnswerType "3.14" = .numeric ∧ getAnswerType "x^2 + 4x + 4" = .algebra ∧
    getAnswerType "summit" = .algebra ∧ getAnswerType "" = .unknown := by
  refine ⟨fun s => rfl, ?_, ?_, ?_, ?_, ?_, ?_⟩ <;> decide


/-! ### Normalizer identity lemmas (for C7) -/

/-- `dropWhile` is the identity when no element satisfies the predicate. -/
theorem dropWhile_id_of_none (p : Char → Bool) (l : List Char)
    (h : ∀ c ∈ l, p c = false) : l.dropWhile p = l := by
  cases l with
  | nil => rfl
  | cons a tl =>
    rw [List.dropWhile_cons, h a (List.mem_cons_self a tl)]
    simp

/-- `map` is the identity when the function fixes every element. -/
theorem map_id_of_fixes (f : Char → Char) (l : List Char)
    (h : ∀ c ∈ l, f c = c) : l.map f = l := by
  induction l with
  | nil => rfl
  | cons a tl ih =>
    rw [List.map_cons, h a (List.mem_cons_self a tl),
      ih (fun c hc => h c (List.mem_cons_of_mem a hc))]

/-- `jsTrim` is the identity on whitespace-free strings. -/
theorem jsTrim_id (s : String) (h : ∀ c ∈ s.data, isJsWhitespace c = false) :
    jsTrim s = s := by
  unfold jsTrim
  rw [dropWhile_id_of_none _ _ h,
    dropWhile_id_of_none _ _ (fun c hc => h c (List.mem_reverse.mp hc)),
    List.reverse_reverse]

/-- `asciiLower` is the identity on letter-free strings. -/
theorem asciiLower_id (s : String) (h : ∀ c ∈ s.data, isAsciiLetter c = false) :
    asciiLower s = s := by
  unfold asciiLower
  rw [map_id_of_fixes _ _ (fun c hc => by
    unfold asciiLowerChar
    have hl := h c hc
    unfold isAsciiLetter at hl
    simp only [Bool.or_eq_false_iff] at hl
    rw [if_neg (by simp [hl.2])])]

/-- `sqrtNumFuel` skips lists without `√`. -/
theorem sqrtNumFuel_id (n : ℕ) (l : List Char) (h : ∀ c ∈ l, c ≠ '√') :
    sqrtNumFuel n l = l := by
  induction n generalizing l with
  | zero => rfl
  | succ n ih =>
    cases l with
    | nil => rfl
    | cons c rest =>
      rw [sqrtNumFuel, if_neg (by simp [h c (List.mem_cons_self c rest)])]
      exact congrArg (c :: ·) (ih rest (fun d hd => h d (List.mem_cons_of_mem c hd)))

/-- `sqrtNum` skips lists without `√`. -/
theorem sqrtNum_id (l : List Char) (h : ∀ c ∈ l, c ≠ '√') : sqrtNum l = l :=
  sqrtNumFuel_id l.length l h

/-- `sqrtVarFuel` skips lists without `√`. -/
theorem sqrtVarFuel_id (n : ℕ) (l : List Char) (h : ∀ c ∈ l, c ≠ '√') :
    sqrtVarFuel n l = l := by
  induction n generalizing l with
  | zero => rfl
  | succ n ih =>
    cases l with
    | nil => rfl
    | cons c rest =>
      rw [sqrtVarFuel, if_neg (by simp [h c (List.mem_cons_self c rest)])]
      exact congrArg (c :: ·) (ih rest (fun d hd => h d (List.mem_cons_of_mem c hd)))

/-- `sqrtVar` skips lists without `√`. -/
theorem sqrtVar_id (l : List Char) (h : ∀ c ∈ l, c ≠ '√') : sqrtVar l = l :=
  sqrtVarFuel_id l.length l h

/-- `sqrtParenFuel` skips lists without `√`. -/
theorem sqrtParenFuel_id (n : ℕ) (l : List Char) (h : ∀ c ∈ l, c ≠ '√') :
    sqrtParenFuel n l = l := by
  induction n generalizing l with
  | zero => rfl
  | succ n ih =>
    cases l with
    | nil => rfl
    | cons c rest =>
      rw [sqrtParenFuel, if_neg (by simp [h c (List.mem_cons_self c rest)])]
      exact congrArg (c :: ·) (ih rest (fun d hd => h d (List.mem_cons_of_mem c hd)))

/-- `sqrtParen` skips lists without `√`. -/
theorem sqrtParen_id (l : List Char) (h : ∀ c ∈ l, c ≠ '√') : sqrtParen l = l :=
  sqrtParenFuel_id l.length l h

/-- `replaceCharStr` skips lists without the target character. -/
theorem replaceCharStr_id (t : Char) (repl : List Char) (l : List Char)
    (h : ∀ c ∈ l, c ≠ t) : replaceCharStr t repl l = l := by
  induction l with
  | nil => rfl
  | cons a tl ih =>
    rw [replaceCharStr, if_neg (h a (List.mem_cons_self a tl))]
    exact congrArg (a :: ·) (ih (fun c hc => h c (List.mem_cons_of_mem a hc)))

/-- `sqrtNumFixFuel` skips lists without `s`. -/
theorem sqrtNumFixFuel_id (n : ℕ) (l : List Char) (h : ∀ c ∈ l, c ≠ 's') :
    sqrtNumFixFuel n l = l := by
  induction n generalizing l with
  | zero => rfl
  | succ n ih =>
    cases l with
    | nil => rfl
    | cons c rest =>
      rw [sqrtNumFixFuel, if_neg (by simp [h c (List.mem_cons_self c rest)])]
      exact congrArg (c :: ·) (ih rest (fun d hd => h d (List.mem_cons_of_mem c hd)))

/-- `sqrtNumFix` skips lists without `s`. -/
theorem sqrtNumFix_id (l : List Char) (h : ∀ c ∈ l, c ≠ 's') : sqrtNumFix l = l :=
  sqrtNumFixFuel_id l.length l h

/-- `sqrtVarFixFuel` skips lists without `s`. -/
theorem sqrtVarFixFuel_id (n : ℕ) (l : List Char) (h : ∀ c ∈ l, c ≠ 's') :
    sqrtVarFixFuel n l = l := by
  induction n generalizing l with
  | zero => rfl
  | succ n ih =>
    cases l with
    | nil => rfl
    | cons c rest =>
      rw [sqrtVarFixFuel, if_neg (by simp [h c (List.mem_cons_self c rest)])]
      exact congrArg (c :: ·) (ih rest (fun d hd => h d (List.mem_cons_of_mem c hd)))

/-- `sqrtVarFix` skips lists without `s`. -/
theorem sqrtVarFix_id (l : List Char) (h : ∀ c ∈ l, c ≠ 's') : sqrtVarFix l = l :=
  sqrtVarFixFuel_id l.length l h

/-- The whitespace filter is the identity on whitespace-free lists. -/
theorem wsFilter_id (l : List Char) (h : ∀ c ∈ l, isJsWhitespace c = false) :
    l.filter (fun c => !(isJsWhitespace c)) = l := by
  induction l with
  | nil => rfl
  | cons a tl ih =>
    rw [List.filter_cons]
    rw [if_pos (by simp [h a (List.mem_cons_self a tl)])]
    exact congrArg (a :: ·) (ih (fun c hc => h c (List.mem_cons_of_mem a hc)))

/-- `digitLetterStar` skips lists without lowercase letters. -/
theorem digitLetterStar_id (l : List Char) (h : ∀ c ∈ l, isLowerAZ c = false) :
    digitLetterStar l = l := by
  induction l with
  | nil => rfl
  | cons a tl ih =>
    cases tl with
    | nil => rfl
    | cons b tl2 =>
      rw [digitLetterStar,
        if_neg (by simp [h b (List.mem_cons_of_mem a (List.mem_cons_self b tl2))])]
      exact congrArg (a :: ·) (ih (fun c hc => h c (List.mem_cons_of_mem a hc)))

/-- `letterDigitStar` skips lists without lowercase letters. -/
theorem letterDigitStar_id (l : List Char) (h : ∀ c ∈ l, isLowerAZ c = false) :
    letterDigitStar l = l := by
  induction l with
  | nil => rfl
  | cons a tl ih =>
    cases tl with
    | nil => rfl
    | cons b tl2 =>
      rw [letterDigitStar, if_neg (by simp [h a (List.mem_cons_self a (b :: tl2))])]
      exact congrArg (a :: ·) (ih (fun c hc => h c (List.mem_cons_of_mem a hc)))

/-- `pairStar` skips lists without lowercase letters. -/
theorem pairStar_id (l : List Char) (h : ∀ c ∈ l, isLowerAZ c = false) :
    pairStar l = l := by
  induction l with
  | nil => rfl
  | cons a tl ih =>
    cases tl with
    | nil => rfl
    | cons b tl2 =>
      rw [pairStar, if_neg (by simp [h a (List.mem_cons_self a (b :: tl2))])]
      exact congrArg (a :: ·) (ih (fun c hc => h c (List.mem_cons_of_mem a hc)))

/-- The normalizer is the identity on strings of inert characters. -/
theorem normalize_inert_id (s : String)
    (h : s.data.all normalizerInertChar = true) :
    normalizeAlgebraExpression s = s := by
  have hall : ∀ c ∈ s.data, normalizerInertChar c = true := by
    simpa [List.all_eq_true] using h
  have hglyph : ∀ g : Char, normalizerInertChar g = false → ∀ c ∈ s.data, c ≠ g := by
    intro g hg c hc he
    have := hall c hc
    rw [he, hg] at this
    exact Bool.false_ne_true this
  have hletter : ∀ c ∈ s.data, isAsciiLetter c = false := by
    intro c hc
    have := hall c hc
    unfold normalizerInertChar at this
    simp only [Bool.and_eq_true, Bool.not_eq_true'] at this
    exact this.1.1
  have hws : ∀ c ∈ s.data, isJsWhitespace c = false := by
    intro c hc
    have := hall c hc
    unfold normalizerInertChar at this
    simp only [Bool.and_eq_true, Bool.not_eq_true'] at this
    exact this.1.2
  have hlower : ∀ c ∈ s.data, isLowerAZ c = false := by
    intro c hc
    have := hletter c hc
    unfold isAsciiLetter at this
    simp only [Bool.or_eq_false_iff] at this
    exact this.1
  simp only [normalizeAlgebraExpression]
  rw [jsTrim_id s hws, asciiLower_id s hletter,
    sqrtNum_id _ (hglyph '√' (by decide)),
    sqrtVar_id _ (hglyph '√' (by decide)),
    sqrtParen_id _ (hglyph '√' (by decide)),
    replaceCharStr_id '√' _ _ (hglyph '√' (by decide)),
    replaceCharStr_id '∛' _ _ (hglyph '∛' (by decide)),
    replaceCharStr_id 'π' _ _ (hglyph 'π' (by decide)),
    replaceCharStr_id '∞' _ _ (hglyph '∞' (by decide)),
    replaceCharStr_id '²' _ _ (hglyph '²' (by decide)),
    replaceCharStr_id '³' _ _ (hglyph '³' (by decide)),
    replaceCharStr_id '⁴' _ _ (hglyph '⁴' (by decide)),
    replaceCharStr_id '⁵' _ _ (hglyph '⁵' (by decide)),
    replaceCharStr_id '⁶' _ _ (hglyph '⁶' (by decide)),
    replaceCharStr_id '⁷' _ _ (hglyph '⁷' (by decide)),
    replaceCharStr_id '⁸' _ _ (hglyph '⁸' (by decide)),
    replaceCharStr_id '⁹' _ _ (hglyph '⁹' (by decide)),
    replaceCharStr_id '⁰' _ _ (hglyph '⁰' (by decide)),
    replaceCharStr_id '¹' _ _ (hglyph '¹' (by decide)),
    replaceCharStr_id '×' _ _ (hglyph '×' (by decide)),
    replaceCharStr_id '·' _ _ (hglyph '·' (by decide)),
    replaceCharStr_id '•' _ _ (hglyph '•' (by decide)),
    replaceCharStr_id '÷' _ _ (hglyph '÷' (by decide)),
    sqrtNumFix_id _ (hglyph 's' (by decide)),
    sqrtVarFix_id _ (hglyph 's' (by decide)),
    wsFilter_id _ hws,
    digitLetterStar_id _ hlower,
    letterDigitStar_id _ hlower,
    pairStar_id _ hlower]

/-- C7 counterexample: the normalizer is not idempotent — the letter-pair
multiplication insertion creates new adjacent letter pairs, so
`normalize("abc") = "ab*c"` while `normalize(normalize("abc")) = "a*b*c"`. -/
theorem normalize_not_idempotent_counterexample :
    normalizeAlgebraExpression (normalizeAlgebraExpression "abc") ≠
      normalizeAlgebraExpression "abc" := by
  decide

/-- C7 amended: idempotence holds whenever the first normalization produces a
string of inert characters (no ASCII letters, whitespace, or special glyphs),
e.g. purely numeric/operator expressions; it fails in general. -/
theorem normalize_idempotent_on_inert_outputs (e : String)
    (h : (normalizeAlgebraExpression e).data.all normalizerInertChar = true) :
    normalizeAlgebraExpression (normalizeAlgebraExpression e) =
      normalizeAlgebraExpression e :=
  normalize_inert_id _ h

/-- C7 amended witness: `normalize` is idempotent at `"(1+2)*3"`. -/
theorem normalize_idempotent_on_inert_outputs_witness :
    normalizeAlgebraExpression (normalizeAlgebraExpression "(1+2)*3") =
      normalizeAlgebraExpression "(1+2)*3" :=
  normalize_idempotent_on_inert_outputs "(1+2)*3" (by decide)
